import Mathlib

/-!
# TrackAI — verification of the metrics/run-lifecycle model

Shallow embedding of the TrackAI experiment-tracking backend
(`src/backend/src/trackai`): the EAV metric encode/decode logic
(`services/logger.py::log_metrics`, `api/routes/metrics.py::get_metric_values`),
the run lifecycle (`services/logger.py::create_run` / `finish_run`,
`run.py::Run.__exit__`), config flattening (`services/logger.py::_log_config`),
the client facade (`trackai/__init__.py`), the S3 sync control flow
(`run.py::Run.finish`, `s3/sync.py`), and the SQLite→DuckDB migration
(`migration/sqlite_to_duckdb.py`).

Python floats are modelled by their shortest-repr decimal strings wrapped in
`PyFloat` (the code only moves them between columns unchanged, never computes
with them), and timestamps by naturals.
-/

namespace TrackAI

/-- Python floats as carried by the tracker: the code never performs arithmetic
on a metric value, it only stores and retrieves it, so a float is modelled by
its shortest decimal representation (what `repr`/`json.dumps` print). -/
structure PyFloat where
  repr : String
deriving DecidableEq, Repr

/-- The four known attribute types of the EAV `metrics` table
(`attribute_type` column). -/
inductive AttrType where
  | bool | int | float | string
deriving DecidableEq, Repr

/-- A Python runtime value passed as a metric. `other` is any value of a type
outside the four known ones; `log_metrics` stores `str(value)` for it, and the
model carries that string. -/
inductive PyVal where
  | vBool (b : Bool)
  | vInt (n : Int)
  | vFloat (x : PyFloat)
  | vStr (s : String)
  | vOther (reprStr : String)
deriving DecidableEq, Repr

/-- Predicate: `v` has one of the four known types (not the stringify-fallback case). -/
def PyVal.known : PyVal → Prop
  | .vOther _ => False
  | _ => True

instance : DecidablePred PyVal.known := by
  intro v; cases v <;> simp [PyVal.known] <;> infer_instance

/-- The runtime type classification used by `log_metrics`: `isinstance` checks
in the order bool, int, float, str, with everything else stringified. -/
def PyVal.attrType : PyVal → AttrType
  | .vBool _ => .bool
  | .vInt _ => .int
  | .vFloat _ => .float
  | .vStr _ => .string
  | .vOther _ => .string

/-- A decoded logical metric value, as returned by the read routes. -/
inductive DecodedVal where
  | dFloat (x : PyFloat)
  | dInt (n : Int)
  | dStr (s : String)
  | dBool (b : Bool)
deriving DecidableEq, Repr

/-- The logical value a known `PyVal` should decode back to. -/
def PyVal.decoded : PyVal → DecodedVal
  | .vBool b => .dBool b
  | .vInt n => .dInt n
  | .vFloat x => .dFloat x
  | .vStr s => .dStr s
  | .vOther s => .dStr s

/-- One row of the `metrics` EAV table (`db/schema.py::Metric`): four nullable
typed value columns plus the declared `attribute_type`. -/
structure Metric where
  run_id : Nat
  attribute_path : String
  attribute_type : AttrType
  step : Option Int
  timestamp : Nat
  float_value : Option PyFloat := none
  int_value : Option Int := none
  string_value : Option String := none
  bool_value : Option Bool := none
deriving DecidableEq, Repr

/-- Model of `LoggingService.log_metrics` (logger.py lines 171-218): classify the value
by `isinstance` in the order bool, int, float, str and populate the matching
column; any other type is stored as `str(value)` in `string_value`. -/
def encodeMetric (rid : Nat) (path : String) (step : Option Int) (ts : Nat) :
    PyVal → Metric
  | .vBool b =>
      { run_id := rid, attribute_path := path, attribute_type := .bool,
        step := step, timestamp := ts, bool_value := some b }
  | .vInt n =>
      { run_id := rid, attribute_path := path, attribute_type := .int,
        step := step, timestamp := ts, int_value := some n }
  | .vFloat x =>
      { run_id := rid, attribute_path := path, attribute_type := .float,
        step := step, timestamp := ts, float_value := some x }
  | .vStr s =>
      { run_id := rid, attribute_path := path, attribute_type := .string,
        step := step, timestamp := ts, string_value := some s }
  | .vOther s =>
      { run_id := rid, attribute_path := path, attribute_type := .string,
        step := step, timestamp := ts, string_value := some s }

/-- The value extraction of `get_metric_values` (metrics.py lines 93-102),
also used verbatim by `compare_metrics` and `get_run_summary`: return the
first non-null column checked in the order float, int, string, bool, else
null. -/
def decodeMetric (m : Metric) : Option DecodedVal :=
  match m.float_value with
  | some x => some (.dFloat x)
  | none =>
    match m.int_value with
    | some n => some (.dInt n)
    | none =>
      match m.string_value with
      | some s => some (.dStr s)
      | none =>
        match m.bool_value with
        | some b => some (.dBool b)
        | none => none

/-- Decode order the spec describes: first non-null column in the priority
order bool, int, float, string. Stated from the spec's words, for comparison
with `decodeMetric` (the code's order). -/
def decodeMetricSpecOrder (m : Metric) : Option DecodedVal :=
  match m.bool_value with
  | some b => some (.dBool b)
  | none =>
    match m.int_value with
    | some n => some (.dInt n)
    | none =>
      match m.float_value with
      | some x => some (.dFloat x)
      | none =>
        match m.string_value with
        | some s => some (.dStr s)
        | none => none

/-- Number of populated value columns of a Metric row. -/
def Metric.popCount (m : Metric) : Nat :=
  (if m.float_value.isSome then 1 else 0) +
  (if m.int_value.isSome then 1 else 0) +
  (if m.string_value.isSome then 1 else 0) +
  (if m.bool_value.isSome then 1 else 0)

/-- The populated column of `m` matches its declared `attribute_type`. -/
def Metric.typeConsistent (m : Metric) : Prop :=
  match m.attribute_type with
  | .bool => m.bool_value.isSome
  | .int => m.int_value.isSome
  | .float => m.float_value.isSome
  | .string => m.string_value.isSome

instance (m : Metric) : Decidable m.typeConsistent := by
  unfold Metric.typeConsistent
  cases m.attribute_type <;> infer_instance

/-! ## Config flattening (`LoggingService._log_config`, logger.py 128-150) -/

/-- A leaf value of a config dictionary. Non-dict values are stored with
`json.dumps`; floats again carry their decimal repr. -/
inductive CfgLeaf where
  | cInt (n : Int)
  | cFloat (x : PyFloat)
  | cStr (s : String)
  | cBool (b : Bool)
  | cNull
deriving DecidableEq, Repr

/-- A plain nested configuration mapping: dict entries in insertion order. -/
inductive CfgVal where
  | leaf (v : CfgLeaf)
  | dict (entries : List (String × CfgVal))

/-- Model of `json.dumps` on a config leaf (logger.py line 146). Strings are quoted;
floats print their repr; booleans lower-case; `None` becomes `null`. -/
def jsonEnc : CfgLeaf → String
  | .cInt n => toString n
  | .cFloat x => x.repr
  | .cStr s => "\"" ++ s ++ "\""
  | .cBool true => "true"
  | .cBool false => "false"
  | .cNull => "null"

/-- One row of the `configs` table, as inserted by `_log_config`. -/
structure ConfigRow where
  run_id : Nat
  key : String
  value : String
deriving DecidableEq, Repr

/-- Model of `LoggingService._log_config`: iterate the dict in order; a nested
dict entry recurses with `prefix := full_key ++ "/"` (emitting its rows before
the following siblings), a leaf entry inserts a row with
`key := prefix ++ key` and the JSON-encoded value. -/
def logConfig (rid : Nat) (pre : String) : List (String × CfgVal) → List ConfigRow
  | [] => []
  | (k, .leaf l) :: rest =>
      { run_id := rid, key := pre ++ k, value := jsonEnc l } ::
        logConfig rid pre rest
  | (k, .dict es) :: rest =>
      logConfig rid (pre ++ k ++ "/") es ++ logConfig rid pre rest

/-- Spec-side key joining: nested keys joined by `"/"`. -/
def joinSlash : List String → String
  | [] => ""
  | [k] => k
  | k :: rest => k ++ "/" ++ joinSlash rest

/-- Spec-side depth-first leaf enumeration of a nested mapping: every leaf with
its path of keys from the root. Stated from the spec's words ("depth-first
flattening with nested keys joined by /"), for comparison with `logConfig`. -/
def leafPaths : List (String × CfgVal) → List (List String × CfgLeaf)
  | [] => []
  | (k, .leaf l) :: rest => ([k], l) :: leafPaths rest
  | (k, .dict es) :: rest =>
      (leafPaths es).map (fun pl => (k :: pl.1, pl.2)) ++ leafPaths rest

/-! ## Runs, projects and the logging service (logger.py, run.py) -/

/-- The `state` column of a run. -/
inductive RunState where
  | running | completed | failed
deriving DecidableEq, Repr

/-- A row of the `projects` table. `project_id` is the generated opaque
external id. -/
structure Project where
  id : Nat
  name : String
  project_id : String
deriving DecidableEq, Repr

/-- A row of the `runs` table. `run_id` is the string identity unique within
the project; `id` is the surrogate primary key. -/
structure DBRun where
  id : Nat
  project_id : Nat
  run_id : String
  name : String
  group_name : Option String
  state : RunState
  created_at : Nat
  updated_at : Nat
deriving DecidableEq, Repr

/-- The database state the logging service operates on. `nextProjectId` and
`nextRunId` model the autoincrement primary keys. -/
structure DB where
  projects : List Project
  runs : List DBRun
  metrics : List Metric
  configs : List ConfigRow
  nextProjectId : Nat
  nextRunId : Nat
deriving DecidableEq, Repr

/-- The two `ValueError` raise sites of `create_run`. -/
inductive CreateErr where
  | alreadyExists (runName projectName : String)
  | notFoundForResume (runName projectName : String)
deriving DecidableEq, Repr

/-- The `resume` argument. -/
inductive ResumeMode where
  | never | allow | must
deriving DecidableEq, Repr

/-- Lookup of a run row by surrogate id, as
`query(Run).filter(Run.id == run_id).first()`. -/
def findRun (runs : List DBRun) (rid : Nat) : Option DBRun :=
  runs.find? (fun r => r.id = rid)

/-- Model of `LoggingService.get_or_create_project` (logger.py 33-54): find the project
by name, else insert a new one whose external id is derived from the wall
clock (modelled by `now`). -/
def getOrCreateProject (db : DB) (projectName : String) (now : Nat) :
    Project × DB :=
  match db.projects.find? (fun p => p.name = projectName) with
  | some p => (p, db)
  | none =>
      let p : Project :=
        { id := db.nextProjectId, name := projectName,
          project_id := projectName ++ "_" ++ toString now }
      (p, { db with projects := db.projects ++ [p],
                    nextProjectId := db.nextProjectId + 1 })

/-- The run name used by `create_run`: the caller's name, or the synthesized
`run-{N+1}` where N is the count of the project's existing runs
(logger.py 79-82). -/
def runNameFor (db1 : DB) (pid : Nat) (runName : Option String) : String :=
  match runName with
  | some n => n
  | none => "run-" ++ toString ((db1.runs.filter (fun r => r.project_id = pid)).length + 1)

/-- The fresh Run row inserted by `create_run` (logger.py 111-117). -/
def newRunRow (db1 : DB) (pid : Nat) (rname : String) (grp : Option String)
    (now : Nat) : DBRun :=
  { id := db1.nextRunId, project_id := pid, run_id := rname, name := rname,
    group_name := grp, state := .running, created_at := now, updated_at := now }

/-- Model of `LoggingService.create_run` (logger.py 56-126): resolve/create the
project, synthesize `run-{N+1}` when the name is omitted, then branch on
whether a run with identity (project, run_name) already exists and on the
resume mode. New runs persist the flattened config. -/
def createRun (db : DB) (projectName : String) (runName : Option String)
    (group : Option String) (config : List (String × CfgVal))
    (resume : ResumeMode) (now : Nat) : Except CreateErr (DBRun × DB) :=
  let pr := getOrCreateProject db projectName now
  let project := pr.1
  let db1 := pr.2
  let rname := runNameFor db1 project.id runName
  match db1.runs.find? (fun r => r.project_id = project.id ∧ r.run_id = rname) with
  | some existing =>
      if resume = .never then
        .error (.alreadyExists rname projectName)
      else
        let resumed := { existing with state := .running, updated_at := now }
        .ok (resumed,
             { db1 with runs := (db1.runs.map
                 (fun r => if r.id = existing.id then resumed else r)) })
  | none =>
      if resume = .must then
        .error (.notFoundForResume rname projectName)
      else
        let run := newRunRow db1 project.id rname group now
        let db2 := { db1 with runs := db1.runs ++ [run],
                              nextRunId := db1.nextRunId + 1 }
        let db3 :=
          if config.isEmpty then db2
          else { db2 with configs := db2.configs ++ logConfig run.id "" config }
        .ok (run, db3)

/-- Model of `LoggingService.log_metrics` (logger.py 152-228): insert one Metric row
per entry, all sharing the same step and timestamp, then touch the run's
`updated_at` — but only if a run with that id exists (`if run:`). -/
def logMetrics (db : DB) (rid : Nat) (metrics : List (String × PyVal))
    (step : Option Int) (ts : Nat) (now : Nat) : DB :=
  let newRows := metrics.map (fun kv => encodeMetric rid kv.1 step ts kv.2)
  let db1 : DB := { db with metrics := db.metrics ++ newRows }
  match findRun db1.runs rid with
  | some _ =>
      { db1 with runs := (db1.runs.map
          (fun r => if r.id = rid then { r with updated_at := now } else r)) }
  | none => db1

/-- Wrapper: `log_metrics` never raises: wrapped in `Except` to state
that the write path has no run-existence check and cannot fail. -/
def logMetricsE (db : DB) (rid : Nat) (metrics : List (String × PyVal))
    (step : Option Int) (ts : Nat) (now : Nat) : Except CreateErr DB :=
  .ok (logMetrics db rid metrics step ts now)

/-- Model of `LoggingService.finish_run` (logger.py 230-241): set state to completed
and bump `updated_at`; silently a no-op when the run is missing. -/
def finishRun (db : DB) (rid : Nat) (now : Nat) : DB :=
  match findRun db.runs rid with
  | some _ =>
      { db with runs := (db.runs.map
          (fun r => if r.id = rid then
              { r with state := .completed, updated_at := now } else r)) }
  | none => db

/-- Model of `Run.__exit__` (run.py 146-164): with no in-flight exception, call
`finish` (which marks completed); with one, set the state to failed directly
(without touching `updated_at`). -/
def exitRun (db : DB) (rid : Nat) (excOccurred : Bool) (now : Nat) : DB :=
  if excOccurred then
    match findRun db.runs rid with
    | some _ =>
        { db with runs := (db.runs.map
            (fun r => if r.id = rid then { r with state := .failed } else r)) }
    | none => db
  else
    finishRun db rid now

/-- Model of `Run.log_system` (run.py 105-119): log metrics with `step := none`
regardless of the per-run step counter. -/
def logSystem (db : DB) (rid : Nat) (metrics : List (String × PyVal))
    (ts : Nat) (now : Nat) : DB :=
  logMetrics db rid metrics none ts now

/-! ## Run summary (`get_run_summary`, runs.py 103-156) -/

/-- The step-null rows of a run, in insertion (rowid) order, as returned by
`query(Metric).filter(Metric.run_id == run_id, Metric.step.is_(None)).all()`. -/
def summaryRows (db : DB) (rid : Nat) : List Metric :=
  db.metrics.filter (fun m => m.run_id = rid ∧ m.step = none)

/-- The `metrics_dict` loop of `get_run_summary` (runs.py 127-139): iterate
the step-null rows in order and assign `dict[path] := decoded value`, so a
later row for the same path overwrites an earlier one. The result maps a path
to `none` when absent, and to `some v` (`v` itself optional, as the decoded
value can be null) when present. -/
def summaryDict (db : DB) (rid : Nat) : String → Option (Option DecodedVal) :=
  (summaryRows db rid).foldl
    (fun d m => fun p =>
      if p = m.attribute_path then some (decodeMetric m) else d p)
    (fun _ => none)

/-! ## Client facade (`trackai/__init__.py`) -/

/-- The error raised by the module-level facade: `RuntimeError("No active
run. Call trackai.init() first.")`. -/
inductive FacadeErr where
  | noActiveRun
deriving DecidableEq, Repr

/-- Module-level `log` (`__init__.py` 58-75) composed with `Run.log`
(run.py 86-103): raise when `_current_run is None`; otherwise use the explicit
step or consume the per-run counter. Returns the new database and counter. -/
def facadeLog (cur : Option Nat) (db : DB) (metrics : List (String × PyVal))
    (step : Option Int) (counter : Nat) (ts : Nat) (now : Nat) :
    Except FacadeErr (DB × Nat) :=
  match cur with
  | none => .error .noActiveRun
  | some rid =>
      match step with
      | some s => .ok (logMetrics db rid metrics (some s) ts now, counter)
      | none => .ok (logMetrics db rid metrics (some counter) ts now, counter + 1)

/-- Module-level `log_system` (`__init__.py` 78-96): raise when no active
run, else log with `step := none`. -/
def facadeLogSystem (cur : Option Nat) (db : DB)
    (metrics : List (String × PyVal)) (ts : Nat) (now : Nat) :
    Except FacadeErr DB :=
  match cur with
  | none => .error .noActiveRun
  | some rid => .ok (logSystem db rid metrics ts now)

/-- Module-level `finish` (`__init__.py` 99-110): when a run is active,
finish it and clear the global; when none is active, do nothing — no error is
raised. -/
def facadeFinish (cur : Option Nat) (db : DB) (now : Nat) :
    Except FacadeErr (Option Nat × DB) :=
  match cur with
  | some rid => .ok (none, finishRun db rid now)
  | none => .ok (none, db)

/-! ## S3 sync control flow (s3/sync.py, run.py 51-68 and 121-140) -/

/-- The exceptions of the sync layer: `botocore` `ClientError` with its HTTP
code, the `ValueError`s for missing configuration, and the
`FileNotFoundError` for a missing local source file. -/
inductive S3Err where
  | clientError (code : Nat)
  | valueErr
  | fileNotFound
deriving DecidableEq, Repr

/-- Model of `sync_to_s3` (sync.py 12-52): validate configuration and source file,
then upload; a `ClientError` from the upload is printed and re-raised. The
engine-level outcome of the one upload call is the `uploadResult` input. -/
def syncToS3 (storageIsS3 bucketConfigured sourceExists : Bool)
    (uploadResult : Except Nat Unit) : Except S3Err Unit :=
  if ¬storageIsS3 then .error .valueErr
  else if ¬bucketConfigured then .error .valueErr
  else if ¬sourceExists then .error .fileNotFound
  else
    match uploadResult with
    | .ok _ => .ok ()
    | .error code => .error (.clientError code)

/-- Model of `sync_from_s3` (sync.py 55-94): no-op when storage is not S3; a download
`ClientError` with code 404 is printed and swallowed ("No database found in
S3, will create new one"), any other code re-raises. Returns whether a file
was downloaded. -/
def syncFromS3 (storageIsS3 bucketConfigured : Bool)
    (downloadResult : Except Nat Unit) : Except S3Err Bool :=
  if ¬storageIsS3 then .ok false
  else if ¬bucketConfigured then .error .valueErr
  else
    match downloadResult with
    | .ok _ => .ok true
    | .error code =>
        if code = 404 then .ok false else .error (.clientError code)

/-- How the run starts with respect to the metrics store. -/
inductive InitStore where
  | downloaded | empty
deriving DecidableEq, Repr

/-- The download phase of `Run.__init__` in S3 mode (run.py 53-68): try
`sync_from_s3`; every exception is caught, a note is printed and the run
starts with an empty database. -/
def runInitStore (downloadResult : Except Nat Unit) : InitStore :=
  match syncFromS3 true true downloadResult with
  | .ok true => .downloaded
  | .ok false => .empty
  | .error _ => .empty

/-- Model of `Run.finish` (run.py 121-140): mark the run completed, then — inside a
`try` whose `except` only prints a warning — upload the store when S3 mode is
configured and a temp copy exists. The returned flag records whether the
sync-failure warning was printed. -/
def runFinish (db : DB) (rid : Nat) (storageIsS3 bucketConfigured tempExists : Bool)
    (uploadResult : Except Nat Unit) (now : Nat) : DB × Bool :=
  let db1 := finishRun db rid now
  if storageIsS3 ∧ tempExists then
    match syncToS3 storageIsS3 bucketConfigured tempExists uploadResult with
    | .ok _ => (db1, false)
    | .error _ => (db1, true)
  else (db1, false)

/-- Wrapper: `Run.finish` as seen by its caller: it never raises (the sync failure is
swallowed by the `except` clause), so its `Except` wrapper is always `ok`. -/
def runFinishE (db : DB) (rid : Nat)
    (storageIsS3 bucketConfigured tempExists : Bool)
    (uploadResult : Except Nat Unit) (now : Nat) : Except S3Err (DB × Bool) :=
  .ok (runFinish db rid storageIsS3 bucketConfigured tempExists uploadResult now)

/-! ## SQLite → DuckDB migration (migration/sqlite_to_duckdb.py) -/

/-- A row of a migrated table: the columns as nullable strings. -/
abbrev MigRow := List (Option String)

/-- A whole store: rows per table name. -/
abbrev MigDB := List (String × List MigRow)

/-- The fixed table list of `migrate_sqlite_to_duckdb` (lines 192-200). -/
def migrationTables : List String :=
  ["projects", "runs", "configs", "metrics", "files", "custom_views", "dashboards"]

/-- Rows of one table of a store. -/
def tableRows (d : MigDB) (name : String) : List MigRow :=
  match d.find? (fun t => t.1 = name) with
  | some t => t.2
  | none => []

/-- The batch loop of `_copy_table_data` (lines 259-275): insert the rows in
slices of 1000, in order. -/
def copyBatches (rows : List MigRow) : List MigRow :=
  if rows.isEmpty then []
  else rows.take 1000 ++ copyBatches (rows.drop 1000)
termination_by rows.length
decreasing_by
  simp only [List.length_drop]
  have hpos : 0 < rows.length := by
    cases rows with
    | nil => simp [List.isEmpty] at *
    | cons a l => simp
  omega

/-- The copy phase of the migration: `_copy_table_data` on every table of the
fixed list. -/
def copyAllTables (src : MigDB) : MigDB :=
  migrationTables.map (fun n => (n, copyBatches (tableRows src n)))

/-- Model of `_verify_migration` (lines 286-318): per-table row-count comparison over
the fixed table list; false as soon as any table's counts differ. -/
def verifyMigration (src dst : MigDB) : Bool :=
  migrationTables.all (fun n => (tableRows src n).length = (tableRows dst n).length)

/-- The files the migration touches. -/
structure MigFS where
  sqliteFile : Option MigDB
  duckdbFile : Option MigDB
  oldFile : Option MigDB
  backupFile : Option MigDB
deriving DecidableEq, Repr

/-- Model of `migrate_sqlite_to_duckdb` (lines 155-226): missing source fails early;
otherwise back up the source, create the destination with whatever the copy
phase persisted (`destAfterCopy`; a healthy engine persists
`copyAllTables src`), verify row counts, and either rename the source to
`*.old` (success) or unlink the partially-written destination (failure). -/
def migrate (fs : MigFS) (destAfterCopy : MigDB) : Bool × MigFS :=
  match fs.sqliteFile with
  | none => (false, fs)
  | some src =>
      let fs1 : MigFS := { fs with backupFile := some src }
      let fs2 : MigFS := { fs1 with duckdbFile := some destAfterCopy }
      if verifyMigration src destAfterCopy then
        (true, { fs2 with sqliteFile := none, oldFile := some src })
      else
        (false, { fs2 with duckdbFile := none })

/-! ## Concrete states and the lifecycle-operation alphabet -/

/-- The run-lifecycle operations of the client library: creating/resuming a
run, the two logging entry points, `finish`, and context-manager exit with or
without an in-flight exception. -/
inductive LifeOp where
  | createOp (projectName : String) (runName : Option String)
      (group : Option String) (config : List (String × CfgVal))
      (resume : ResumeMode)
  | logOp (rid : Nat) (metrics : List (String × PyVal)) (step : Option Int)
      (ts : Nat)
  | logSystemOp (rid : Nat) (metrics : List (String × PyVal)) (ts : Nat)
  | finishOp (rid : Nat)
  | exitOp (rid : Nat) (excOccurred : Bool)

/-- Apply one lifecycle operation to the database (a failed `create_run`
leaves it unchanged). -/
def applyLife (db : DB) (op : LifeOp) (now : Nat) : DB :=
  match op with
  | .createOp P rn g cfg rm =>
      match createRun db P rn g cfg rm now with
      | .ok x => x.2
      | .error _ => db
  | .logOp rid ms st ts => logMetrics db rid ms st ts now
  | .logSystemOp rid ms ts => logSystem db rid ms ts now
  | .finishOp rid => finishRun db rid now
  | .exitOp rid exc => exitRun db rid exc now

/-- The run row `create_run` sees for identity (projectName, runName): the
lookup it performs after resolving the project. -/
def existingRunFor (db : DB) (projectName runName : String) (now : Nat) :
    Option DBRun :=
  (getOrCreateProject db projectName now).2.runs.find?
    (fun r => r.project_id = (getOrCreateProject db projectName now).1.id ∧
              r.run_id = runName)

/-- A Metric row with two populated value columns, distinguishing the two
decode orders. -/
def mixedRow : Metric :=
  { run_id := 1, attribute_path := "x", attribute_type := .float, step := none,
    timestamp := 0, float_value := some ⟨"1.5"⟩, bool_value := some true }

/-- A Metric row with exactly the bool column populated. -/
def boolRow : Metric :=
  { run_id := 1, attribute_path := "y", attribute_type := .bool, step := none,
    timestamp := 0, bool_value := some false }

/-- An empty database state. -/
def dbEmpty : DB := ⟨[], [], [], [], 0, 0⟩

/-- A project row for concrete witnesses. -/
def projW : Project := ⟨0, "p", "p_0"⟩

/-- A previously completed run with identity ("p", "r1"). -/
def runW : DBRun := ⟨0, 0, "r1", "r1", none, .completed, 1, 1⟩

/-- A database holding `projW` and the completed `runW`. -/
def dbW : DB := ⟨[projW], [runW], [], [], 1, 1⟩

/-- A one-table-populated source store for the migration witness. -/
def srcW : MigDB := [("projects", [[some "1"]])]

/-- A destination store that persisted nothing (row-count mismatch). -/
def dstW : MigDB := []

/-- A filesystem state holding only the source store. -/
def fsW : MigFS := ⟨some srcW, none, none, none⟩

/-! ## Theorems -/

/-- C1: logging a metric value of a known type (bool, int, float, string)
writes a Metric row whose `attribute_type` matches the value's type, with
exactly one value column populated — the one matching `attribute_type` — and
decoding that row returns the value unchanged. -/
theorem metric_encode_decode_roundtrip (rid : Nat) (path : String)
    (step : Option Int) (ts : Nat) (v : PyVal) (h : v.known) :
    (encodeMetric rid path step ts v).attribute_type = v.attrType ∧
    (encodeMetric rid path step ts v).popCount = 1 ∧
    (encodeMetric rid path step ts v).typeConsistent ∧
    decodeMetric (encodeMetric rid path step ts v) = some v.decoded := by
  cases v <;>
    simp [encodeMetric, decodeMetric, PyVal.attrType, PyVal.decoded,
      Metric.popCount, Metric.typeConsistent, PyVal.known] at h ⊢

/-- Witness for C1 at the concrete value `true`. -/
theorem metric_encode_decode_roundtrip_witness :
    PyVal.known (.vBool true) ∧
    ((encodeMetric 1 "acc" none 0 (.vBool true)).attribute_type =
       (PyVal.vBool true).attrType ∧
     (encodeMetric 1 "acc" none 0 (.vBool true)).popCount = 1 ∧
     (encodeMetric 1 "acc" none 0 (.vBool true)).typeConsistent ∧
     decodeMetric (encodeMetric 1 "acc" none 0 (.vBool true)) =
       some (PyVal.vBool true).decoded) :=
  ⟨by decide, metric_encode_decode_roundtrip 1 "acc" none 0 (.vBool true) (by decide)⟩

/-- Counterexample to C8: the code's decode checks `float_value` first, so on
a row where both `bool_value` and `float_value` are populated it returns the
float, while the claimed bool-first priority order would return the bool. -/
theorem decode_order_counterexample :
    decodeMetric mixedRow = some (.dFloat ⟨"1.5"⟩) ∧
    decodeMetricSpecOrder mixedRow = some (.dBool true) ∧
    decodeMetric mixedRow ≠ decodeMetricSpecOrder mixedRow := by
  refine ⟨rfl, rfl, ?_⟩
  decide

/-- C8 (amended): decoding returns the first non-null value column checked in
the order float, int, string, bool; on a row with exactly one populated
column (the only rows `log_metrics` produces) this is that column's value,
and there the bool-first order of the spec agrees with the code's order. -/
theorem decode_single_populated (m : Metric) (h : m.popCount = 1) :
    decodeMetric m = decodeMetricSpecOrder m ∧
    (∀ x, m.float_value = some x → decodeMetric m = some (.dFloat x)) ∧
    (∀ n, m.int_value = some n → decodeMetric m = some (.dInt n)) ∧
    (∀ s, m.string_value = some s → decodeMetric m = some (.dStr s)) ∧
    (∀ b, m.bool_value = some b → decodeMetric m = some (.dBool b)) := by
  rcases hf : m.float_value with _ | x <;>
    rcases hi : m.int_value with _ | n <;>
      rcases hs : m.string_value with _ | s <;>
        rcases hb : m.bool_value with _ | b <;>
          simp_all [Metric.popCount, decodeMetric, decodeMetricSpecOrder]

/-- Every leaf path produced by `leafPaths` is nonempty. -/
lemma leafPaths_ne_nil (es : List (String × CfgVal)) :
    ∀ pl ∈ leafPaths es, pl.1 ≠ [] := by
  induction es using leafPaths.induct with
  | case1 => intro pl h; simp [leafPaths] at h
  | case2 k l rest ih =>
      intro pl h
      rw [leafPaths] at h
      rcases List.mem_cons.mp h with h1 | h1
      · subst h1; simp
      · exact ih pl h1
  | case3 k es rest ih1 ih2 =>
      intro pl h
      rw [leafPaths] at h
      rcases List.mem_append.mp h with h1 | h1
      · rcases List.mem_map.mp h1 with ⟨q, _, hq⟩
        subst hq; simp
      · exact ih2 pl h1

/-- The prefix-accumulating `_log_config` computes the depth-first leaf
enumeration with `/`-joined keys. -/
lemma logConfig_eq_leafPaths (rid : Nat) (pre : String)
    (es : List (String × CfgVal)) :
    logConfig rid pre es = (leafPaths es).map (fun pl =>
      { run_id := rid, key := pre ++ joinSlash pl.1, value := jsonEnc pl.2 }) := by
  induction pre, es using logConfig.induct rid with
  | case1 pre => simp [logConfig, leafPaths]
  | case2 pre k l rest ih =>
      rw [logConfig, leafPaths, ih]
      simp [joinSlash]
  | case3 pre k es rest ih1 ih2 =>
      rw [logConfig, leafPaths, ih1, ih2, List.map_append, List.map_map]
      congr 1
      apply List.map_congr_left
      intro pl hpl
      have hne : pl.1 ≠ [] := leafPaths_ne_nil es pl hpl
      rcases pl with ⟨p, l⟩
      cases p with
      | nil => exact absurd rfl hne
      | cons a q =>
          simp only [Function.comp]
          congr 1
          have h1 : joinSlash (k :: a :: q) = k ++ "/" ++ joinSlash (a :: q) := rfl
          rw [h1]
          simp [String.append_assoc]

/-- C6: the stored Config rows of a nested configuration mapping are its
depth-first flattening with nested keys joined by `/` and each leaf value
JSON-encoded; in particular `{"model": {"lr": 0.1}}` is stored as the single
row `("model/lr", "0.1")`. -/
theorem config_flatten_rows (rid : Nat) (cfg : List (String × CfgVal)) :
    logConfig rid "" cfg = (leafPaths cfg).map (fun pl =>
      { run_id := rid, key := joinSlash pl.1, value := jsonEnc pl.2 }) ∧
    logConfig rid ""
        [("model", .dict [("lr", .leaf (.cFloat ⟨"0.1"⟩))])] =
      [{ run_id := rid, key := "model/lr", value := "0.1" }] := by
  constructor
  · rw [logConfig_eq_leafPaths]
    apply List.map_congr_left
    intro pl _
    congr 1
  · simp [logConfig, jsonEnc]

/-- Metric inserts never depend on the run lookup: `log_metrics` always
extends the metrics table by one encoded row per key. -/
lemma logMetrics_metrics (db : DB) (rid : Nat)
    (metrics : List (String × PyVal)) (step : Option Int) (ts now : Nat) :
    (logMetrics db rid metrics step ts now).metrics =
      db.metrics ++ metrics.map (fun kv => encodeMetric rid kv.1 step ts kv.2) := by
  unfold logMetrics
  cases h : findRun db.runs rid <;> simp [h]

/-- C10: logging metrics for a `run_id` that matches no Run row still inserts
one Metric row per key and completes without raising; the runs table — and in
particular any `updated_at` value — is untouched because the `if run:` guard
skips the touch. -/
theorem log_metrics_missing_run (db : DB) (rid : Nat)
    (metrics : List (String × PyVal)) (step : Option Int) (ts now : Nat)
    (h : findRun db.runs rid = none) :
    logMetricsE db rid metrics step ts now =
      .ok { db with metrics := db.metrics ++
              metrics.map (fun kv => encodeMetric rid kv.1 step ts kv.2) } := by
  unfold logMetricsE logMetrics
  simp [h]

/-- Witness for C10: an empty database has no run 5, and logging to it
appends the encoded row and succeeds. -/
theorem log_metrics_missing_run_witness :
    findRun dbEmpty.runs 5 = none ∧
    logMetricsE dbEmpty 5 [("loss", .vInt 3)] (some 0) 1 2 =
      .ok { dbEmpty with metrics :=
              dbEmpty.metrics ++ ([("loss", PyVal.vInt 3)].map (fun kv => encodeMetric 5 kv.1 (some 0) 1 kv.2)) } :=
  ⟨by decide,
   log_metrics_missing_run dbEmpty 5 [("loss", .vInt 3)]
     (some 0) 1 2 (by decide)⟩

/-- Every encoded row decodes to the logical value, whatever the type. -/
lemma decode_encode (rid : Nat) (p : String) (step : Option Int) (ts : Nat)
    (v : PyVal) : decodeMetric (encodeMetric rid p step ts v) = some v.decoded := by
  cases v <;> rfl

/-- Encoded rows keep the run id, path and step they were given. -/
lemma encode_fields (rid : Nat) (p : String) (step : Option Int) (ts : Nat)
    (v : PyVal) :
    (encodeMetric rid p step ts v).run_id = rid ∧
    (encodeMetric rid p step ts v).attribute_path = p ∧
    (encodeMetric rid p step ts v).step = step := by
  cases v <;> exact ⟨rfl, rfl, rfl⟩

/-- C9: two sequential `log_system` calls on the same path each insert a
separate row with `step = null`, and the summary dictionary — built by
iterating the step-null rows in insertion order — reports the most recently
inserted value for that path. -/
theorem log_system_twice_latest (db : DB) (rid : Nat) (p : String)
    (v1 v2 : PyVal) (t1 t2 n1 n2 : Nat) :
    ((logSystem (logSystem db rid [(p, v1)] t1 n1) rid [(p, v2)] t2 n2).metrics.countP
        (fun m => m.run_id = rid ∧ m.attribute_path = p ∧ m.step = none)) =
      (db.metrics.countP
        (fun m => m.run_id = rid ∧ m.attribute_path = p ∧ m.step = none)) + 2 ∧
    summaryDict (logSystem (logSystem db rid [(p, v1)] t1 n1) rid [(p, v2)] t2 n2)
        rid p = some (some v2.decoded) := by
  have hm : (logSystem (logSystem db rid [(p, v1)] t1 n1) rid [(p, v2)] t2 n2).metrics
      = db.metrics ++ [encodeMetric rid p none t1 v1, encodeMetric rid p none t2 v2] := by
    unfold logSystem
    rw [logMetrics_metrics, logMetrics_metrics]
    simp
  constructor
  · rw [hm, List.countP_append]
    have e1 := encode_fields rid p none t1 v1
    have e2 := encode_fields rid p none t2 v2
    simp [List.countP_cons, e1.1, e1.2.1, e1.2.2, e2.1, e2.2.1, e2.2.2]
  · unfold summaryDict summaryRows
    rw [hm, List.filter_append]
    have e1 := encode_fields rid p none t1 v1
    have e2 := encode_fields rid p none t2 v2
    have hf : (List.filter
        (fun m => decide (m.run_id = rid ∧ m.step = none))
        [encodeMetric rid p none t1 v1, encodeMetric rid p none t2 v2]) =
        [encodeMetric rid p none t1 v1, encodeMetric rid p none t2 v2] := by
      simp [List.filter, e1.1, e1.2.2, e2.1, e2.2.2]
    rw [hf, List.foldl_append]
    simp [e2.2.1, decode_encode]

/-- A run found by id satisfies the id predicate. -/
lemma findRun_id {l : List DBRun} {rid : Nat} {r : DBRun}
    (h : findRun l rid = some r) : r.id = rid := by
  unfold findRun at h
  have hp := List.find?_some h
  exact of_decide_eq_true hp

/-- Mapping an id-preserving function over the runs commutes with the
by-id lookup. -/
lemma findRun_map_pres (l : List DBRun) (f : DBRun → DBRun)
    (hid : ∀ r, (f r).id = r.id) (rid : Nat) :
    findRun (l.map f) rid = (findRun l rid).map f := by
  unfold findRun
  rw [List.find?_map]
  congr 2
  funext r
  simp [Function.comp, hid]

/-- No run becomes failed under an update map that never yields failed on a
non-failed input. -/
lemma failed_after_map (l : List DBRun) (g : DBRun → DBRun)
    (hid : ∀ r, (g r).id = r.id)
    (hst : ∀ r, (g r).state = .failed → r.state = .failed)
    (rid : Nat) (r' : DBRun)
    (hfind : findRun (l.map g) rid = some r')
    (hf : r'.state = .failed) :
    ∃ r, findRun l rid = some r ∧ r.state = .failed := by
  rw [findRun_map_pres l g hid rid] at hfind
  cases h : findRun l rid with
  | none =>
      rw [h] at hfind
      exact absurd ((rfl : (none : Option DBRun) = none) ▸ hfind) (by simp)
  | some r =>
      rw [h] at hfind
      have h2 : some (g r) = some r' := hfind
      have h3 : g r = r' := by injection h2
      exact ⟨r, rfl, hst r (h3 ▸ hf)⟩

/-- Appending a running run introduces no failed run either. -/
lemma failed_after_append (l : List DBRun) (nr : DBRun)
    (hnr : nr.state = .running) (rid : Nat) (r' : DBRun)
    (hfind : findRun (l ++ [nr]) rid = some r')
    (hf : r'.state = .failed) :
    ∃ r, findRun l rid = some r ∧ r.state = .failed := by
  unfold findRun at hfind ⊢
  rw [List.find?_append] at hfind
  cases h : l.find? (fun r => decide (r.id = rid)) with
  | some r =>
      rw [h] at hfind
      have h2 : some r = some r' := hfind
      have h3 : r = r' := by injection h2
      exact ⟨r, rfl, h3 ▸ hf⟩
  | none =>
      rw [h] at hfind
      have h2 : List.find? (fun r => decide (r.id = rid)) [nr] = some r' := hfind
      rcases (List.find?_cons_eq_some).mp h2 with ⟨_, hnr2⟩ | ⟨_, habs⟩
      · rw [← hnr2, hnr] at hf
        cases hf
      · exact absurd habs (by simp)

/-- Resolving/creating the project never touches the runs table. -/
lemma getOrCreateProject_runs (db : DB) (P : String) (now : Nat) :
    (getOrCreateProject db P now).2.runs = db.runs := by
  unfold getOrCreateProject
  cases h : db.projects.find? (fun p => p.name = P) <;> simp [h]

/-- A successful `create_run` either rewrites the runs list with an
id-preserving update that never introduces a failed state (resume), or
appends one fresh running run (create). -/
lemma createRun_runs (db : DB) (P : String) (rn : Option String)
    (grp : Option String) (cfg : List (String × CfgVal)) (rm : ResumeMode)
    (now : Nat) (r0 : DBRun) (db2 : DB)
    (hok : createRun db P rn grp cfg rm now = .ok (r0, db2)) :
    (∃ f : DBRun → DBRun, (∀ r, (f r).id = r.id) ∧
       (∀ r, (f r).state = .failed → r.state = .failed) ∧
       db2.runs = db.runs.map f) ∨
    (∃ nr : DBRun, db2.runs = db.runs ++ [nr] ∧ nr.state = .running) := by
  unfold createRun at hok
  simp only [] at hok
  split at hok
  case h_1 existing heq =>
    split at hok
    · simp at hok
    · simp only [Except.ok.injEq, Prod.mk.injEq] at hok
      obtain ⟨-, h2⟩ := hok
      subst h2
      left
      refine ⟨fun r => if r.id = existing.id then
        { existing with state := .running, updated_at := now } else r, ?_, ?_, ?_⟩
      · intro r
        by_cases hr : r.id = existing.id <;> simp [hr]
      · intro r hfail
        by_cases hr : r.id = existing.id
        · simp [hr] at hfail
        · simpa [hr] using hfail
      · simp [getOrCreateProject_runs]
  case h_2 heq =>
    split at hok
    · simp at hok
    · right
      by_cases hc : cfg.isEmpty = true
      · rw [if_pos hc] at hok
        simp only [Except.ok.injEq, Prod.mk.injEq] at hok
        obtain ⟨-, h2⟩ := hok
        subst h2
        exact ⟨_, by rw [getOrCreateProject_runs], rfl⟩
      · rw [if_neg hc] at hok
        simp only [Except.ok.injEq, Prod.mk.injEq] at hok
        obtain ⟨-, h2⟩ := hok
        subst h2
        exact ⟨_, by rw [getOrCreateProject_runs], rfl⟩

/-- A `finish_run` never introduces a failed state. -/
lemma finishRun_no_new_failed (db : DB) (rid2 now rid : Nat) (r' : DBRun)
    (hfind : findRun (finishRun db rid2 now).runs rid = some r')
    (hf : r'.state = .failed) :
    ∃ r, findRun db.runs rid = some r ∧ r.state = .failed := by
  unfold finishRun at hfind
  cases hm : findRun db.runs rid2 with
  | some r2 =>
      rw [hm] at hfind
      simp only [] at hfind
      refine failed_after_map db.runs _ ?_ ?_ rid r' hfind hf
      · intro x
        by_cases hx : x.id = rid2 <;> simp [hx]
      · intro x hx
        by_cases h2 : x.id = rid2
        · simp [h2] at hx
        · simpa [h2] using hx
  | none =>
      rw [hm] at hfind
      exact ⟨r', hfind, hf⟩

/-- A `log_metrics` never introduces a failed state either. -/
lemma logMetrics_no_new_failed (db : DB) (rid2 : Nat)
    (ms : List (String × PyVal)) (st : Option Int) (ts now rid : Nat)
    (r' : DBRun)
    (hfind : findRun (logMetrics db rid2 ms st ts now).runs rid = some r')
    (hf : r'.state = .failed) :
    ∃ r, findRun db.runs rid = some r ∧ r.state = .failed := by
  unfold logMetrics at hfind
  simp only [] at hfind
  cases hm : findRun db.runs rid2 with
  | some r2 =>
      rw [hm] at hfind
      simp only [] at hfind
      refine failed_after_map db.runs _ ?_ ?_ rid r' hfind hf
      · intro x
        by_cases hx : x.id = rid2 <;> simp [hx]
      · intro x hx
        by_cases h2 : x.id = rid2
        · simpa [h2] using hx
        · simpa [h2] using hx
  | none =>
      rw [hm] at hfind
      exact ⟨r', hfind, hf⟩

/-- C5: context-manager exit with an in-flight exception marks the run
failed; exit without one marks it completed; and across the whole lifecycle
alphabet — create/resume, both logging entry points, finish, and the two
exit paths — the exception exit is the only operation that can turn a
non-failed run into a failed one. -/
theorem exit_failed_only_on_exception :
    (∀ db rid now r, findRun db.runs rid = some r →
       findRun (exitRun db rid true now).runs rid =
         some { r with state := RunState.failed }) ∧
    (∀ db rid now r, findRun db.runs rid = some r →
       findRun (exitRun db rid false now).runs rid =
         some { r with state := RunState.completed, updated_at := now }) ∧
    (∀ db op now rid r',
       findRun (applyLife db op now).runs rid = some r' →
       r'.state = RunState.failed →
       (∃ e, op = LifeOp.exitOp e true) ∨
       (∃ r, findRun db.runs rid = some r ∧ r.state = RunState.failed)) := by
  refine ⟨?_, ?_, ?_⟩
  · intro db rid now r h
    have hid := findRun_id h
    unfold exitRun
    rw [if_pos rfl, h]
    simp only []
    show findRun (db.runs.map (fun x =>
      if x.id = rid then { x with state := RunState.failed } else x)) rid =
      some { r with state := RunState.failed }
    rw [findRun_map_pres db.runs _ (fun x => by
      by_cases hx : x.id = rid <;> simp [hx]) rid, h]
    simp [hid]
  · intro db rid now r h
    have hid := findRun_id h
    unfold exitRun finishRun
    rw [if_neg (by simp), h]
    simp only []
    show findRun (db.runs.map (fun x =>
      if x.id = rid then { x with state := RunState.completed, updated_at := now }
      else x)) rid =
      some { r with state := RunState.completed, updated_at := now }
    rw [findRun_map_pres db.runs _ (fun x => by
      by_cases hx : x.id = rid <;> simp [hx]) rid, h]
    simp [hid]
  · intro db op now rid r' hfind hf
    cases op with
    | createOp P rn g cfg rm =>
        simp only [applyLife] at hfind
        cases hc : createRun db P rn g cfg rm now with
        | error e =>
            rw [hc] at hfind
            right
            exact ⟨r', hfind, hf⟩
        | ok x =>
            obtain ⟨r0, db2⟩ := x
            rw [hc] at hfind
            simp only [] at hfind
            right
            rcases createRun_runs db P rn g cfg rm now r0 db2 hc with
              ⟨f, hid, hst, hruns⟩ | ⟨nr, hruns, hnr⟩
            · rw [hruns] at hfind
              exact failed_after_map db.runs f hid hst rid r' hfind hf
            · rw [hruns] at hfind
              exact failed_after_append db.runs nr hnr rid r' hfind hf
    | logOp rid2 ms st ts =>
        simp only [applyLife] at hfind
        right
        exact logMetrics_no_new_failed db rid2 ms st ts now rid r' hfind hf
    | logSystemOp rid2 ms ts =>
        simp only [applyLife, logSystem] at hfind
        right
        exact logMetrics_no_new_failed db rid2 ms none ts now rid r' hfind hf
    | finishOp rid2 =>
        simp only [applyLife] at hfind
        right
        exact finishRun_no_new_failed db rid2 now rid r' hfind hf
    | exitOp rid2 exc =>
        cases exc with
        | true => exact Or.inl ⟨rid2, rfl⟩
        | false =>
            simp only [applyLife, exitRun] at hfind
            rw [if_neg (by simp)] at hfind
            right
            exact finishRun_no_new_failed db rid2 now rid r' hfind hf

/-- The batch loop reassembles exactly the source rows. -/
lemma copyBatches_eq (rows : List MigRow) : copyBatches rows = rows := by
  induction rows using copyBatches.induct with
  | case1 rows h =>
      rw [copyBatches]
      simp_all [List.isEmpty_iff]
  | case2 rows h ih =>
      rw [copyBatches]
      simp only [h, if_neg]
      rw [ih, List.take_append_drop]
      simp [h]

/-- After the copy phase with a healthy engine, every listed table holds
exactly the source's rows. -/
lemma tableRows_copyAllTables (src : MigDB) (t : String)
    (ht : t ∈ migrationTables) :
    tableRows (copyAllTables src) t = tableRows src t := by
  have key : (copyAllTables src).find? (fun x => x.1 = t) =
      some (t, copyBatches (tableRows src t)) := by
    unfold copyAllTables
    rw [List.find?_map]
    have hcong : ((fun x : String × List MigRow => decide (x.1 = t)) ∘
        (fun n => (n, copyBatches (tableRows src n)))) =
        (fun n : String => decide (n = t)) := by
      funext n
      rfl
    rw [hcong]
    cases hfq : migrationTables.find? (fun n => decide (n = t)) with
    | none =>
        rw [List.find?_eq_none] at hfq
        exact absurd (hfq t ht) (by simp)
    | some n =>
        have hp := List.find?_some hfq
        have hn : n = t := of_decide_eq_true hp
        subst hn
        rfl
  unfold tableRows
  rw [key]
  simp only []
  rw [copyBatches_eq]
  rfl

/-- C7: the copy phase writes exactly the source rows per table; the
verification succeeds precisely when every listed table's row counts agree;
on a mismatch the migration reports failure and the partially-written
destination file is gone; on success the destination holds the copied store
and the source survives renamed (`oldFile`) instead of being deleted — in
particular a healthy copy of any source store migrates successfully. -/
theorem migration_copy_verify_rollback (fs : MigFS) (src dst : MigDB)
    (rows : List MigRow) (h : fs.sqliteFile = some src) :
    copyBatches rows = rows ∧
    (verifyMigration src dst = true ↔
       ∀ t ∈ migrationTables,
         (tableRows src t).length = (tableRows dst t).length) ∧
    (verifyMigration src dst = false →
       migrate fs dst =
         (false, { fs with backupFile := some src, duckdbFile := none })) ∧
    (verifyMigration src dst = true →
       migrate fs dst =
         (true, { fs with backupFile := some src, duckdbFile := some dst,
                          sqliteFile := none, oldFile := some src })) ∧
    migrate fs (copyAllTables src) =
      (true, { fs with backupFile := some src,
                       duckdbFile := some (copyAllTables src),
                       sqliteFile := none, oldFile := some src }) := by
  have hverify : ∀ d : MigDB, verifyMigration src d = true ↔
      ∀ t ∈ migrationTables,
        (tableRows src t).length = (tableRows d t).length := by
    intro d
    simp [verifyMigration, List.all_eq_true]
  have hfail : verifyMigration src dst = false →
      migrate fs dst =
        (false, { fs with backupFile := some src, duckdbFile := none }) := by
    intro hv
    unfold migrate
    rw [h]
    simp only [hv]
    rfl
  have hsucc : ∀ d : MigDB, verifyMigration src d = true →
      migrate fs d =
        (true, { fs with backupFile := some src, duckdbFile := some d,
                         sqliteFile := none, oldFile := some src }) := by
    intro d hv
    unfold migrate
    rw [h]
    simp only [hv]
    rfl
  refine ⟨copyBatches_eq rows, hverify dst, hfail, hsucc dst, ?_⟩
  refine hsucc (copyAllTables src) ?_
  rw [hverify (copyAllTables src)]
  intro t ht
  rw [tableRows_copyAllTables src t ht]

/-- Witness for C7 at a concrete mismatching copy: the one-table source
`srcW` against an empty destination fails verification, and the migration
reports failure with the destination file deleted. -/
theorem migration_copy_verify_rollback_witness :
    fsW.sqliteFile = some srcW ∧
    verifyMigration srcW dstW = false ∧
    migrate fsW dstW =
      (false, { fsW with backupFile := some srcW, duckdbFile := none }) :=
  ⟨rfl, by decide,
   (migration_copy_verify_rollback fsW srcW dstW [] rfl).2.2.1 (by decide)⟩

/-- Witness for C5: in `dbW`, exiting run 0 with an in-flight exception
leaves it in state failed. -/
theorem exit_failed_only_on_exception_witness :
    findRun dbW.runs 0 = some runW ∧
    findRun (exitRun dbW 0 true 5).runs 0 =
      some { runW with state := RunState.failed } :=
  ⟨by decide, exit_failed_only_on_exception.1 dbW 0 5 runW (by decide)⟩

/-- Counterexample to C4: calling the module-level `finish` with no active
run does not fail with a state error — it silently does nothing and returns
normally. -/
theorem facade_finish_noop_counterexample :
    facadeFinish none dbEmpty 5 = .ok (none, dbEmpty) := rfl

/-- C4 (amended): with no active run, the module-level `log` and `log_system`
fail with the no-active-run state error; `finish`, however, is a silent
no-op that returns normally, and finishing an active run clears the current
run so that a subsequent `log` fails. -/
theorem facade_state_errors (db : DB) (metrics : List (String × PyVal))
    (step : Option Int) (counter ts now : Nat) :
    facadeLog none db metrics step counter ts now = .error .noActiveRun ∧
    facadeLogSystem none db metrics ts now = .error .noActiveRun ∧
    facadeFinish none db now = .ok (none, db) ∧
    (∀ rid, facadeFinish (some rid) db now = .ok (none, finishRun db rid now)) := by
  exact ⟨rfl, rfl, rfl, fun _ => rfl⟩

/-- Counterexample to C3: a failing upload inside `Run.finish` does not
propagate — `sync_to_s3` itself raises the `ClientError`, but `Run.finish`
catches it, prints a warning and returns normally. -/
theorem upload_failure_swallowed_counterexample :
    syncToS3 true true true (.error 500) = .error (.clientError 500) ∧
    runFinishE dbEmpty 1 true true true (.error 500) 7 =
      .ok (finishRun dbEmpty 1 7, true) := by
  exact ⟨rfl, rfl⟩

/-- C3 (amended): an upload failure after finish is caught by `Run.finish`
and reported only as a warning — the finish operation returns normally with
the run marked completed (`sync_to_s3` alone re-raises the `ClientError`) —
while a download-not-found before first use is non-fatal and the run starts
with an empty store. -/
theorem sync_failure_handling (db : DB) (rid : Nat) (e now : Nat)
    (tempExists : Bool) :
    syncToS3 true true true (.error e) = .error (.clientError e) ∧
    runFinishE db rid true true tempExists (.error e) now =
      .ok (finishRun db rid now, tempExists) ∧
    runInitStore (.error 404) = .empty := by
  refine ⟨rfl, ?_, rfl⟩
  unfold runFinishE runFinish
  cases tempExists <;> simp [syncToS3]

/-- C2: when a run with identity (P, R) exists, re-requesting it with
`resume="never"` fails with the already-exists Conflict error; with
`resume="allow"` or `resume="must"` the same run (same surrogate id) is
returned with state running and `updated_at` set to the request time — even
if it was previously completed, since the existing state is arbitrary here;
and when no such run exists, `resume="must"` fails with the NotFound error. -/
theorem run_resume_semantics (db : DB) (P R : String) (grp : Option String)
    (cfg : List (String × CfgVal)) (now : Nat) :
    (∀ ex, existingRunFor db P R now = some ex →
       createRun db P (some R) grp cfg .never now =
         .error (.alreadyExists R P) ∧
       (∀ mode, mode = ResumeMode.allow ∨ mode = ResumeMode.must →
          ∃ db2, createRun db P (some R) grp cfg mode now =
            .ok ({ ex with state := .running, updated_at := now }, db2) ∧
            ({ ex with state := .running, updated_at := now } : DBRun).id = ex.id)) ∧
    (existingRunFor db P R now = none →
       createRun db P (some R) grp cfg .must now =
         .error (.notFoundForResume R P)) := by
  constructor
  · intro ex hex
    unfold existingRunFor at hex
    constructor
    · unfold createRun
      simp only [runNameFor]
      rw [hex]
      rfl
    · intro mode hmode
      have step : ∀ m, m = ResumeMode.allow ∨ m = ResumeMode.must → ∀ x, x = m →
          ∃ db2, createRun db P (some R) grp cfg x now =
            .ok ({ ex with state := .running, updated_at := now }, db2) := by
        intro m hm x hx
        subst hx
        unfold createRun
        simp only [runNameFor]
        rw [hex]
        rcases hm with h | h <;> subst h <;> exact ⟨_, rfl⟩
      obtain ⟨db2, hdb2⟩ := step mode hmode mode rfl
      exact ⟨db2, hdb2, rfl⟩
  · intro hnone
    unfold existingRunFor at hnone
    unfold createRun
    simp only [runNameFor]
    rw [hnone]
    rfl

/-- Witness for C2: in `dbW` the completed run `runW` has identity
("p", "r1"), and re-requesting it with `resume="never"` fails with the
already-exists error. -/
theorem run_resume_semantics_witness :
    existingRunFor dbW "p" "r1" 10 = some runW ∧
    createRun dbW "p" (some "r1") none [] .never 10 =
      .error (.alreadyExists "r1" "p") :=
  ⟨by decide,
   ((run_resume_semantics dbW "p" "r1" none [] 10).1 runW (by decide)).1⟩


/-- Witness for C8 (amended) at a concrete single-populated row. -/
theorem decode_single_populated_witness :
    boolRow.popCount = 1 ∧
    decodeMetric boolRow = decodeMetricSpecOrder boolRow :=
  ⟨by decide, (decode_single_populated boolRow (by decide)).1⟩

end TrackAI
